import Mathlib

/-!
Formal model of the scan-matching localizer of `ed_localization`
(`src/localization_plugin2.cpp`), together with proofs of the behavioural
properties claimed for it.

Modelling conventions:

* All poses in the plugin are planar (translation `(x, y)` at a fixed height,
  rotation about the z axis only), so a `geo::Pose3D` is embedded as a planar
  rigid transform `Pose`: a 2x2 rotation block plus a 2d translation, exactly
  the block that line 253 of the source extracts into a `geo::Transform2`.
* Machine doubles are embedded as rationals.  The only places where genuinely
  non-rational values matter are (a) the IEEE special values NaN and the two
  infinities in the raw-range coercion of lines 196-198, embedded by the
  dedicated type `FVal` whose comparison operators follow IEEE semantics, and
  (b) `cos`/`sin` produced by `setRPY(0, 0, a)`, which are abstracted as an
  arbitrary angle-to-(cosine, sine) parameter `rot` wherever they occur.
* The for-loops over `double` counters (lines 147-151, 166-170) are embedded
  as the lists of values they enumerate, with the iteration counts of IEEE
  double stepping.  For the global x/y grid (50 values each), the global
  heading grid (63) and the dx/dy window (6), IEEE stepping performs the same
  number of iterations as exact stepping, and the entries are idealized to
  the nominal grid values (the accumulated doubles differ from them by about
  1e-16).  The yaw-window loop of line 170 is the exception: under IEEE
  stepping it runs 21 times, one more than exact stepping would give, because
  the accumulated counter after 20 increments is 0.9999999999999998, still
  below 1; `windowAngles` therefore lists the exact rational values of the 21
  doubles that loop visits.
-/

/-- A planar rigid transform: the 2x2 matrix `[[xx, xy], [yx, yy]]` acting on
column vectors, plus a translation `(tx, ty)`.  This is the planar restriction
of `geo::Pose3D` used throughout the plugin, and is literally the data that
line 253 of the source packs into a `geo::Transform2`. -/
structure Pose where
  xx : ℚ
  xy : ℚ
  yx : ℚ
  yy : ℚ
  tx : ℚ
  ty : ℚ
deriving DecidableEq

/-- Composition of transforms, `a * b` of `geo::Transform3`: rotation blocks
multiply, translation is `a.R * b.t + a.t`. -/
def Pose.mul (a b : Pose) : Pose where
  xx := a.xx * b.xx + a.xy * b.yx
  xy := a.xx * b.xy + a.xy * b.yy
  yx := a.yx * b.xx + a.yy * b.yx
  yy := a.yx * b.xy + a.yy * b.yy
  tx := a.xx * b.tx + a.xy * b.ty + a.tx
  ty := a.yx * b.tx + a.yy * b.ty + a.ty

/-- Inverse of a transform as `geo::Transform3::inverse` computes it: the
rotation block is transposed and the translation is `-(R^T * t)`. -/
def Pose.inverse (a : Pose) : Pose where
  xx := a.xx
  xy := a.yx
  yx := a.xy
  yy := a.yy
  tx := -(a.xx * a.tx + a.yx * a.ty)
  ty := -(a.xy * a.tx + a.yy * a.ty)

/-- The identity transform. -/
def Pose.id : Pose := ⟨1, 0, 0, 1, 0, 0⟩

/-- A pure translation by `x` along the world x-axis: the pose written
`pose(x, 0, 0)` in the specification. -/
def translationP (x : ℚ) : Pose := ⟨1, 0, 0, 1, x, 0⟩

/-- Application of a transform to a 2d point, as `geo::Transform2::operator*`
does on lines 265-266 of the source. -/
def Pose.apply2 (T : Pose) (p : ℚ × ℚ) : ℚ × ℚ :=
  (T.xx * p.1 + T.xy * p.2 + T.tx, T.yx * p.1 + T.yy * p.2 + T.ty)

/-- The pose with translation `(x, y)` and rotation `setRPY(0, 0, a)`, i.e.
the z-rotation `[[cos a, -sin a], [sin a, cos a]]`.  The transcendental pair
`(cos a, sin a)` is abstracted as the parameter `rot a`. -/
def poseFrom (rot : ℚ → ℚ × ℚ) (x y a : ℚ) : Pose where
  xx := (rot a).1
  xy := -(rot a).2
  yx := (rot a).2
  yy := (rot a).1
  tx := x
  ty := y

/-- The persistent state of `LocalizationPlugin`: the two flags initialized to
`false` by the constructor (line 55) and the two stored poses. -/
structure LPState where
  pose_initialized : Bool
  have_previous_pose : Bool
  previous_pose : Pose
  best_laser_pose : Pose
deriving DecidableEq

/-- The state produced by the constructor (line 55): both flags are `false`;
the two pose members are default-constructed, here arbitrary parameters. -/
def initState (p b : Pose) : LPState := ⟨false, false, p, b⟩

/-- Lines 122-135 of `process`: if an odometry message is present, convert it
to `new_pose`; when both a previous pose is stored and the pose estimate is
initialized, premultiply the best pose by `delta = new_pose * previous⁻¹`;
in every case store `new_pose` as the previous pose and set the flag. -/
def motionUpdate (s : LPState) (odom : Option Pose) : LPState :=
  match odom with
  | none => s
  | some newPose =>
      { pose_initialized := s.pose_initialized
        have_previous_pose := true
        previous_pose := newPose
        best_laser_pose :=
          if s.have_previous_pose && s.pose_initialized then
            ((newPose.mul s.previous_pose.inverse).mul s.best_laser_pose)
          else s.best_laser_pose }

/-- Lines 275-279 of `process`: the contribution of one beam to a candidate's
accumulated error.  `diff = sensor - model`; if `|diff| > 0.3` then `diff` is
replaced by `0.3`; the contribution is `diff * diff`. -/
def beamError (s m : ℚ) : ℚ :=
  let diff := s - m
  let d := if |diff| > 3 / 10 then 3 / 10 else diff
  d * d

/-- Lines 272-280: the accumulated sum of squared per-beam errors of one
candidate pose, over the paired sensor and model ranges. -/
def sumSqError (ss ms : List ℚ) : ℚ :=
  (List.zipWith beamError ss ms).sum

/-- A raw laser reading as a machine double: either an IEEE special value
(NaN, one of the two infinities) or a finite value, embedded as a rational. -/
inductive FVal where
  | nan : FVal
  | posInf : FVal
  | negInf : FVal
  | fin : ℚ → FVal
deriving DecidableEq

/-- The IEEE comparison `r != r`, true exactly for NaN. -/
def FVal.neqSelf : FVal → Bool
  | .nan => true
  | _ => false

/-- The IEEE comparison `r > m` against a finite bound `m`: true for `+inf`,
false for NaN and `-inf`, and the rational comparison for finite values. -/
def FVal.gtFin : FVal → ℚ → Bool
  | .nan, _ => false
  | .posInf, _ => true
  | .negInf, _ => false
  | .fin q, m => decide (m < q)

/-- Lines 194-198 of `process`: a raw reading `r` is replaced by `0` when
`r != r || r > range_max`, and pushed unchanged otherwise. -/
def coerceReading (rmax : ℚ) (r : FVal) : FVal :=
  if r.neqSelf || r.gtFin rmax then .fin 0 else r

/-- Lines 182-190: `num_beams` is first set to the raw beam count and then
unconditionally overwritten with 100 (the guard on line 183 is commented
out), so the loop stride is `i_step = ranges.size() / 100` in integer
division. -/
def iStep (rawCount : ℕ) : ℕ := rawCount / 100

/-- The index update `i += i_step` of the subsampling loop on line 192. -/
def loopNext (stride i : ℕ) : ℕ := i + stride

/-- The subsampling loop of lines 191-200: starting at `i = 0`, while
`i < ranges.size()` push `coerceReading` of `ranges[i]` and advance by
`stride`.  The extra fuel argument makes the recursion structural; `subsample`
passes `ranges.length` fuel, which bounds the loop's iteration count whenever
`stride ≥ 1`.  For `stride = 0` the C++ loop never advances `i` and never
terminates (see the divergence theorem for C3), so no total function can
mirror it there. -/
def subsampleLoop (ranges : List FVal) (rmax : ℚ) (stride : ℕ) : ℕ → ℕ → List FVal
  | _, 0 => []
  | i, fuel + 1 =>
    if i < ranges.length then
      coerceReading rmax (ranges.getD i (FVal.fin 0)) ::
        subsampleLoop ranges rmax stride (i + stride) fuel
    else []

/-- Lines 190-200 assembled: the subsampled, coerced sensor-range vector. -/
def subsample (ranges : List FVal) (rmax : ℚ) : List FVal :=
  subsampleLoop ranges rmax (iStep ranges.length) 0 ranges.length

/-- The planar cross product of two vectors. -/
def cross2 (a b : ℚ × ℚ) : ℚ := a.1 * b.2 - a.2 * b.1

/-- Modelled from the spec: the ray-cast primitive of geolib's
`geo::LaserRangeFinder`, which is not part of this repository.  Per the
specification a beam "casts a ray from the origin and returns the distance to
the nearest intersecting segment".  For beam direction `d` and the segment
from `p1` to `p2`: solving `t • d = p1 + s • (p2 - p1)`, the ray hits the
segment iff the two are not parallel, `t > 0` ("smallest positive intersection
distance") and `0 ≤ s ≤ 1`, and the hit distance is `t` in units of `d`. -/
def raySegIntersect (d p1 p2 : ℚ × ℚ) : Option ℚ :=
  let e := (p2.1 - p1.1, p2.2 - p1.2)
  let denom := cross2 d e
  if denom = 0 then none
  else
    let t := cross2 p1 e / denom
    let s := cross2 p1 d / denom
    if 0 < t ∧ 0 ≤ s ∧ s ≤ 1 then some t else none

/-- Modelled from the spec: `geo::LaserRangeFinder::renderLine`, called on
line 269 of the source but implemented in geolib, which is not part of this
repository.  It updates the per-beam range vector with one segment: a beam
whose ray hits the segment keeps the nearer of the stored range and the hit
distance, where a stored `0` means "nothing rendered yet"; a beam whose ray
misses the segment is left unchanged. -/
def renderLine (dirs : List (ℚ × ℚ)) (p1 p2 : ℚ × ℚ) (ranges : List ℚ) : List ℚ :=
  List.zipWith
    (fun d r =>
      match raySegIntersect d p1 p2 with
      | none => r
      | some t => if r = 0 ∨ t < r then t else r)
    dirs ranges

/-- A world-frame cross-section segment: a pair of 2d endpoints, as collected
by `LineRenderResult::renderLine` into `lines_start` / `lines_end`. -/
abbrev Seg := (ℚ × ℚ) × (ℚ × ℚ)

/-- Lines 256-270 of `process`: the per-candidate model ranges.  The vector is
created filled with zeros (line 257, one per beam); then every cross-section
segment is transformed by `T` (the planar block of the candidate's inverse
pose, line 253) and rendered on top of it. -/
def modelRanges (dirs : List (ℚ × ℚ)) (T : Pose) (segs : List Seg) : List ℚ :=
  segs.foldl (fun rs seg => renderLine dirs (T.apply2 seg.1) (T.apply2 seg.2) rs)
    (List.replicate dirs.length 0)

/-- Lines 250-280: the accumulated error of one candidate pose: the candidate
is inverted, the cross-section is rendered in its frame, and the capped sum of
squared differences against the sensor ranges is accumulated. -/
def candScore (ss : List ℚ) (dirs : List (ℚ × ℚ)) (segs : List Seg) (p : Pose) : ℚ :=
  sumSqError ss (modelRanges dirs p.inverse segs)

/-- Lines 284-289: the body of the candidate loop, carrying the running
minimum (seeded with `1e10` on line 247) and the plugin state: a strictly
smaller score replaces the minimum, stores the candidate as the best pose and
sets `pose_initialized`. -/
def searchStep (score : Pose → ℚ) (acc : ℚ × LPState) (p : Pose) : ℚ × LPState :=
  if score p < acc.1 then
    (score p,
      { pose_initialized := true
        have_previous_pose := acc.2.have_previous_pose
        previous_pose := acc.2.previous_pose
        best_laser_pose := p })
  else acc

/-- Lines 247-290: the candidate search over the whole pose list, returning
the updated plugin state. -/
def runSearch (score : Pose → ℚ) (cands : List Pose) (s : LPState) : LPState :=
  (cands.foldl (searchStep score) (10 ^ 10, s)).2

/-- Lines 147-149: the global-mode x grid, the 50 nominal values of
`x = -5; x < 5; x += 0.2` (IEEE stepping also performs 50 iterations; y runs
over the same list). -/
def globalXs : List ℚ := (List.range 50).map (fun k => -5 + k / 5)

/-- Line 151: the 63 nominal global-mode heading values of
`a = 0; a < 6.28; a += 0.1` (IEEE stepping also performs 63 iterations). -/
def globalAngles : List ℚ := (List.range 63).map (fun k => k / 10)

/-- Lines 143-161: the uniform global candidate grid (x outer, y middle,
heading inner), each pose built with translation `(x, y)` and
`setRPY(0, 0, a)`. -/
def globalCandidates (rot : ℚ → ℚ × ℚ) : List Pose :=
  globalXs.flatMap (fun x => globalXs.flatMap (fun y =>
    globalAngles.map (fun a => poseFrom rot x y a)))

/-- Lines 166-168: the local-window translational offsets, the 6 nominal
values of `dx = -0.3; dx < 0.3; dx += 0.1` (IEEE stepping also performs 6
iterations; dy runs over the same list). -/
def windowOffsets : List ℚ := [-(3 / 10), -(2 / 10), -(1 / 10), 0, 1 / 10, 2 / 10]

/-- Line 170: the local-window yaw offsets of `da = -1; da < 1; da += 0.1`.
Under IEEE double arithmetic this loop runs 21 times, one more iteration than
exact stepping would give: the accumulated counter after 20 increments of the
double `0.1` is `0.9999999999999998`, still below `1`.  The entries are the
exact rational values of the 21 doubles the loop visits, obtained by exact
simulation of the IEEE accumulation (each denominator is a power of two). -/
def windowAngles : List ℚ :=
  [-1,
   -(8106479329266893 : ℚ) / 9007199254740992,
   -(3602879701896397 : ℚ) / 4503599627370496,
   -(6305039478318695 : ℚ) / 9007199254740992,
   -(1351079888211149 : ℚ) / 2251799813685248,
   -(4503599627370497 : ℚ) / 9007199254740992,
   -(1801439850948199 : ℚ) / 4503599627370496,
   -(2702159776422299 : ℚ) / 9007199254740992,
   -(7205759403792799 : ℚ) / 36028797018963968,
   -(1801439850948201 : ℚ) / 18014398509481984,
   -(5 : ℚ) / 36028797018963968,
   (450359962737049 : ℚ) / 4503599627370496,
   (7205759403792789 : ℚ) / 36028797018963968,
   (5404319552844593 : ℚ) / 18014398509481984,
   (900719925474099 : ℚ) / 2251799813685248,
   (4503599627370495 : ℚ) / 9007199254740992,
   (2702159776422297 : ℚ) / 4503599627370496,
   (6305039478318693 : ℚ) / 9007199254740992,
   (900719925474099 : ℚ) / 1125899906842624,
   (8106479329266891 : ℚ) / 9007199254740992,
   (4503599627370495 : ℚ) / 4503599627370496]

/-- Lines 166-179: the local window in generation order (dx outer, dy middle,
da inner). -/
def localWindow : List (ℚ × ℚ × ℚ) :=
  windowOffsets.flatMap (fun dx => windowOffsets.flatMap (fun dy =>
    windowAngles.map (fun da => (dx, dy, da))))

/-- Lines 162-180: local-mode candidates: first the unperturbed best pose
(line 164), then `best * dT` for every window entry, `dT` being the pose with
translation `(dx, dy, 0)` and rotation `setRPY(0, 0, da)` (lines 172-176). -/
def localCandidates (rot : ℚ → ℚ × ℚ) (best : Pose) : List Pose :=
  best :: localWindow.map (fun w => best.mul (poseFrom rot w.1 w.2.1 w.2.2))

/-- Lines 143-180: candidate generation dispatches on `pose_initialized`. -/
def genCandidates (rot : ℚ → ℚ × ℚ) (s : LPState) : List Pose :=
  if s.pose_initialized then localCandidates rot s.best_laser_pose
  else globalCandidates rot

theorem pose_mul_translation : (translationP 1).mul (translationP 2) = translationP 3 := by
  simp only [Pose.mul, translationP, Pose.mk.injEq]
  norm_num

theorem beamError_eq_min_sq (s m : ℚ) : beamError s m = (min |s - m| (3 / 10)) ^ 2 := by
  simp only [beamError]
  split_ifs with h
  · rw [min_eq_right (le_of_lt h)]
    ring
  · rw [min_eq_left (not_lt.mp h), sq_abs]
    ring

theorem beamError_le_cap (s m : ℚ) : beamError s m ≤ 9 / 100 := by
  rw [beamError_eq_min_sq]
  have h1 : min |s - m| (3 / 10) ≤ 3 / 10 := min_le_right _ _
  have h0 : (0 : ℚ) ≤ min |s - m| (3 / 10) := le_min (abs_nonneg _) (by norm_num)
  calc (min |s - m| (3 / 10)) ^ 2 ≤ (3 / 10) ^ 2 := pow_le_pow_left₀ h0 h1 2
    _ = 9 / 100 := by norm_num

/-- C6: the per-beam error contribution equals the square of the clamped
absolute difference `min |sensor - model| 0.3`, hence never exceeds
`0.09 = 0.3^2`; and the accumulated candidate error is exactly the sum of
these per-beam contributions. -/
theorem c6_beam_error_clamped (s m : ℚ) (ss ms : List ℚ) :
    beamError s m = (min |s - m| (3 / 10)) ^ 2 ∧
    beamError s m ≤ 9 / 100 ∧
    sumSqError ss ms = (List.zipWith beamError ss ms).sum :=
  ⟨beamError_eq_min_sq s m, beamError_le_cap s m, rfl⟩

/-- C5: motion integration.  With a stored previous odometry pose and an
initialized estimate, consuming odometry pose `P1` sets the best pose to
`(P1 * previous⁻¹) * best` and stores `P1` as previous; with no previous pose
stored the best pose is unchanged while `P1` is still stored.  Concretely,
`P0 = pose(0,0,0)`, `P1 = pose(1,0,0)`, `B = pose(2,0,0)` predict
`pose(3,0,0)`. -/
theorem c5_motion_integration (s s2 : LPState) (P1 : Pose)
    (h1 : s.have_previous_pose = true) (h2 : s.pose_initialized = true)
    (h3 : s2.have_previous_pose = false) :
    (motionUpdate s (some P1)).best_laser_pose =
      (P1.mul s.previous_pose.inverse).mul s.best_laser_pose ∧
    (motionUpdate s (some P1)).previous_pose = P1 ∧
    (motionUpdate s2 (some P1)).best_laser_pose = s2.best_laser_pose ∧
    (motionUpdate s2 (some P1)).previous_pose = P1 ∧
    motionUpdate ⟨true, true, translationP 0, translationP 2⟩ (some (translationP 1)) =
      ⟨true, true, translationP 1, translationP 3⟩ := by
  refine ⟨?_, rfl, ?_, rfl, ?_⟩
  · simp [motionUpdate, h1, h2]
  · simp [motionUpdate, h3]
  · simp only [motionUpdate, Bool.and_self, if_pos]
    norm_num [Pose.mul, Pose.inverse, translationP, Pose.mk.injEq, LPState.mk.injEq]

/-- Witness for C5 at a concrete state: the specification's numeric instance. -/
theorem c5_witness :
    motionUpdate ⟨true, true, translationP 0, translationP 2⟩ (some (translationP 1)) =
      ⟨true, true, translationP 1, translationP 3⟩ :=
  (c5_motion_integration ⟨true, true, translationP 0, translationP 2⟩
    ⟨true, false, Pose.id, Pose.id⟩ (translationP 1) rfl rfl rfl).2.2.2.2

/-- C4 counterexample: a `-inf` reading is neither unequal to itself nor
greater than `range_max`, so line 197's test does not fire and `-inf` is
pushed into the sensor-range vector unchanged, not coerced to `0`. -/
theorem c4_neginf_counterexample :
    coerceReading 30 FVal.negInf = FVal.negInf ∧ FVal.negInf ≠ FVal.fin 0 :=
  ⟨rfl, fun h => FVal.noConfusion h⟩

/-- C4 amended: NaN, `+inf` and finite readings exceeding `range_max` are
coerced to `0`; `-inf` is passed through unchanged; every other reading is
passed through unchanged. -/
theorem c4_coercion_amended (rmax : ℚ) :
    coerceReading rmax FVal.nan = FVal.fin 0 ∧
    coerceReading rmax FVal.posInf = FVal.fin 0 ∧
    coerceReading rmax FVal.negInf = FVal.negInf ∧
    (∀ q : ℚ, rmax < q → coerceReading rmax (FVal.fin q) = FVal.fin 0) ∧
    (∀ q : ℚ, q ≤ rmax → coerceReading rmax (FVal.fin q) = FVal.fin q) := by
  refine ⟨rfl, rfl, rfl, ?_, ?_⟩
  · intro q h
    simp [coerceReading, FVal.neqSelf, FVal.gtFin, h]
  · intro q h
    simp [coerceReading, FVal.neqSelf, FVal.gtFin, not_lt.mpr h]

/-- Witness for C4's amended statement at concrete readings. -/
theorem c4_witness :
    coerceReading 30 (FVal.fin 31) = FVal.fin 0 ∧
    coerceReading 30 (FVal.fin 5) = FVal.fin 5 :=
  ⟨(c4_coercion_amended 30).2.2.2.1 31 (by norm_num),
   (c4_coercion_amended 30).2.2.2.2 5 (by norm_num)⟩

set_option maxRecDepth 10000 in
/-- C2 (code bug): the stride is `raw / 100` unconditionally.  A raw count of
1000 indeed gives stride 10 and 100 effective beams, but a raw count of 150
gives stride 1 and keeps all 150 beams — exceeding the claimed cap of 100 and
contradicting the source's own comment "limit to 100 beams" — and a raw count
of 50 gives stride 0, under which the loop cannot advance (C3). -/
theorem c2_subsample_cap_bug :
    iStep 1000 = 10 ∧
    (subsample (List.replicate 1000 (FVal.fin 1)) 30).length = 100 ∧
    iStep 150 = 1 ∧
    (subsample (List.replicate 150 (FVal.fin 1)) 30).length = 150 ∧
    ¬ (subsample (List.replicate 150 (FVal.fin 1)) 30).length ≤ 100 ∧
    iStep 50 = 0 := by
  refine ⟨rfl, by decide, rfl, by decide, by decide, rfl⟩

/-- C3 (code bug): for a raw beam count of 50 the stride `i_step = 50 / 100`
is `0`, so the loop index of line 192 is a fixed point of the update
`i += i_step` and the guard `i < 50` stays true after every number of
iterations: the subsampling loop never terminates. -/
theorem c3_subsample_divergence :
    iStep 50 = 0 ∧
    ∀ n : ℕ, (loopNext (iStep 50))^[n] 0 = 0 ∧ (loopNext (iStep 50))^[n] 0 < 50 := by
  refine ⟨rfl, ?_⟩
  intro n
  have h : (loopNext (iStep 50))^[n] 0 = 0 := by
    induction n with
    | zero => rfl
    | succ k ih =>
      rw [Function.iterate_succ_apply', ih]
      rfl
  exact ⟨h, by rw [h]; norm_num⟩

theorem renderLine_length (dirs : List (ℚ × ℚ)) (p1 p2 : ℚ × ℚ) (rs : List ℚ) :
    (renderLine dirs p1 p2 rs).length = min dirs.length rs.length :=
  List.length_zipWith _ _ _

theorem renderLine_miss (dirs : List (ℚ × ℚ)) (p1 p2 : ℚ × ℚ) (rs : List ℚ) (i : ℕ)
    (hi : i < dirs.length) (hr : i < rs.length)
    (hm : raySegIntersect (dirs.getD i (0, 0)) p1 p2 = none) :
    (renderLine dirs p1 p2 rs).getD i 0 = rs.getD i 0 := by
  have hlen : i < (renderLine dirs p1 p2 rs).length := by
    rw [renderLine_length]
    exact lt_min hi hr
  rw [List.getD_eq_getElem _ _ hlen, List.getD_eq_getElem _ _ hr]
  rw [List.getD_eq_getElem _ _ hi] at hm
  simp only [renderLine, List.getElem_zipWith, hm]

theorem modelRanges_foldl_miss (dirs : List (ℚ × ℚ)) (T : Pose) (i : ℕ)
    (hi : i < dirs.length) :
    ∀ (segs : List Seg) (rs : List ℚ), rs.length = dirs.length → rs.getD i 0 = 0 →
    (∀ seg ∈ segs,
      raySegIntersect (dirs.getD i (0, 0)) (T.apply2 seg.1) (T.apply2 seg.2) = none) →
    (segs.foldl (fun rs seg => renderLine dirs (T.apply2 seg.1) (T.apply2 seg.2) rs) rs).getD i 0
      = 0 := by
  intro segs
  induction segs with
  | nil =>
    intro rs _ h2 _
    exact h2
  | cons sg tl ih =>
    intro rs h1 h2 hm
    rw [List.foldl_cons]
    apply ih
    · rw [renderLine_length, h1]
      exact min_self _
    · rw [renderLine_miss dirs _ _ rs i hi (h1 ▸ hi) (hm sg (List.mem_cons_self sg tl))]
      exact h2
    · intro seg hs
      exact hm seg (List.mem_cons_of_mem sg hs)

/-- C1 counterexample: the per-candidate model-range vector is created filled
with zeros (line 257) and only beams whose rays hit some segment are ever
written, so with an empty cross-section (every beam trivially intersects no
segment) the value for a beam is `0`, not `range_max` — here `range_max = 30`
and one beam along the positive x axis. -/
theorem c1_render_miss_counterexample :
    ¬ (∀ (dirs : List (ℚ × ℚ)) (T : Pose) (segs : List Seg) (rmax : ℚ) (i : ℕ),
        i < dirs.length →
        (∀ seg ∈ segs,
          raySegIntersect (dirs.getD i (0, 0)) (T.apply2 seg.1) (T.apply2 seg.2) = none) →
        (modelRanges dirs T segs).getD i 0 = rmax) := by
  intro h
  have h30 := h [(1, 0)] Pose.id [] 30 0 (by norm_num) (by simp)
  have hz : (modelRanges [((1 : ℚ), (0 : ℚ))] Pose.id []).getD 0 0 = 0 := rfl
  rw [hz] at h30
  norm_num at h30

/-- C1 amended: any beam whose direction intersects no segment of the
cross-section keeps the initialization value `0` in the candidate's
model-range vector (not `range_max`). -/
theorem c1_render_miss_amended (dirs : List (ℚ × ℚ)) (T : Pose) (segs : List Seg) (i : ℕ)
    (hi : i < dirs.length)
    (hm : ∀ seg ∈ segs,
      raySegIntersect (dirs.getD i (0, 0)) (T.apply2 seg.1) (T.apply2 seg.2) = none) :
    (modelRanges dirs T segs).getD i 0 = 0 := by
  apply modelRanges_foldl_miss dirs T i hi segs (List.replicate dirs.length 0)
    (List.length_replicate _ _) ?_ hm
  rcases lt_or_le i dirs.length with hlt | hle
  · rw [List.getD_eq_getElem _ _ (by simpa using hlt)]
    simp
  · exact List.getD_eq_default _ _ (by simpa using hle)

/-- Witness for C1's amended statement: one beam along the positive x axis and
one segment parallel to that beam (the horizontal segment at height 1), which
the ray misses; the model range stays `0`. -/
theorem c1_render_miss_witness :
    (modelRanges [((1 : ℚ), (0 : ℚ))] Pose.id
      [(((0 : ℚ), (1 : ℚ)), ((1 : ℚ), (1 : ℚ)))]).getD 0 0 = 0 :=
  c1_render_miss_amended [(1, 0)] Pose.id [((0, 1), (1, 1))] 0 (by norm_num)
    (by
      intro seg hs
      simp only [List.mem_singleton] at hs
      subst hs
      norm_num [raySegIntersect, cross2, Pose.apply2, Pose.id])

theorem searchFold_no_update (score : Pose → ℚ) :
    ∀ (l : List Pose) (m : ℚ) (s : LPState), (∀ p ∈ l, ¬ score p < m) →
    l.foldl (searchStep score) (m, s) = (m, s) := by
  intro l
  induction l with
  | nil =>
    intro m s _
    rfl
  | cons h t ih =>
    intro m s hno
    rw [List.foldl_cons]
    have hstep : searchStep score (m, s) h = (m, s) := by
      simp [searchStep, hno h (List.mem_cons_self h t)]
    rw [hstep]
    exact ih m s (fun p hp => hno p (List.mem_cons_of_mem h hp))

theorem searchFold_preserve (score : Pose → ℚ) :
    ∀ (l : List Pose) (m : ℚ) (s : LPState),
      (l.foldl (searchStep score) (m, s)).2.have_previous_pose = s.have_previous_pose ∧
      (l.foldl (searchStep score) (m, s)).2.previous_pose = s.previous_pose ∧
      (s.pose_initialized = true → (l.foldl (searchStep score) (m, s)).2.pose_initialized = true) := by
  intro l
  induction l with
  | nil =>
    intro m s
    exact ⟨rfl, rfl, fun h => h⟩
  | cons h t ih =>
    intro m s
    rw [List.foldl_cons]
    unfold searchStep
    split
    · obtain ⟨a, b, c⟩ := ih (score h)
        ⟨true, s.have_previous_pose, s.previous_pose, h⟩
      exact ⟨a, b, fun _ => c rfl⟩
    · exact ih m s

theorem searchFold_argmin (score : Pose → ℚ) :
    ∀ (l : List Pose) (m : ℚ) (s : LPState), (∃ p ∈ l, score p < m) →
    ∃ l1 l2,
      l = l1 ++ (l.foldl (searchStep score) (m, s)).2.best_laser_pose :: l2 ∧
      score (l.foldl (searchStep score) (m, s)).2.best_laser_pose < m ∧
      (∀ q ∈ l, score (l.foldl (searchStep score) (m, s)).2.best_laser_pose ≤ score q) ∧
      (∀ q ∈ l1, score (l.foldl (searchStep score) (m, s)).2.best_laser_pose < score q) ∧
      (l.foldl (searchStep score) (m, s)).2.pose_initialized = true := by
  intro l
  induction l with
  | nil =>
    rintro m s ⟨p, hp, _⟩
    simp at hp
  | cons h t ih =>
    intro m s hex
    rw [List.foldl_cons]
    by_cases hh : score h < m
    · have hstep : searchStep score (m, s) h =
          (score h, ⟨true, s.have_previous_pose, s.previous_pose, h⟩) := by
        simp [searchStep, hh]
      rw [hstep]
      by_cases ht : ∃ p ∈ t, score p < score h
      · obtain ⟨l1, l2, hdec, hlt, hle, hstrict, hinit⟩ :=
          ih (score h) ⟨true, s.have_previous_pose, s.previous_pose, h⟩ ht
        refine ⟨h :: l1, l2, ?_, lt_trans hlt hh, ?_, ?_, hinit⟩
        · rw [List.cons_append, ← hdec]
        · intro q hq
          rcases List.mem_cons.mp hq with rfl | hq2
          · exact le_of_lt hlt
          · exact hle q hq2
        · intro q hq
          rcases List.mem_cons.mp hq with rfl | hq2
          · exact hlt
          · exact hstrict q hq2
      · push_neg at ht
        rw [searchFold_no_update score t (score h) _ (fun p hp => not_lt.mpr (ht p hp))]
        refine ⟨[], t, rfl, hh, ?_, ?_, rfl⟩
        · intro q hq
          rcases List.mem_cons.mp hq with rfl | hq2
          · exact le_refl _
          · exact ht q hq2
        · intro q hq
          simp at hq
    · have hstep : searchStep score (m, s) h = (m, s) := by
        simp [searchStep, hh]
      rw [hstep]
      have hex2 : ∃ p ∈ t, score p < m := by
        obtain ⟨p, hp, hps⟩ := hex
        rcases List.mem_cons.mp hp with rfl | hp2
        · exact absurd hps hh
        · exact ⟨p, hp2, hps⟩
      obtain ⟨l1, l2, hdec, hlt, hle, hstrict, hinit⟩ := ih m s hex2
      refine ⟨h :: l1, l2, ?_, hlt, ?_, ?_, hinit⟩
      · rw [List.cons_append, ← hdec]
      · intro q hq
        rcases List.mem_cons.mp hq with rfl | hq2
        · exact le_of_lt (lt_of_lt_of_le hlt (not_lt.mp hh))
        · exact hle q hq2
      · intro q hq
        rcases List.mem_cons.mp hq with rfl | hq2
        · exact lt_of_lt_of_le hlt (not_lt.mp hh)
        · exact hstrict q hq2

theorem zipWith_beamError_bound :
    ∀ (ss ms : List ℚ), ∀ x ∈ List.zipWith beamError ss ms, x ≤ 9 / 100 := by
  intro ss
  induction ss with
  | nil =>
    intro ms x hx
    simp at hx
  | cons a t ih =>
    intro ms x hx
    cases ms with
    | nil => simp at hx
    | cons b tm =>
      rw [List.zipWith_cons_cons] at hx
      rcases List.mem_cons.mp hx with rfl | hx2
      · exact beamError_le_cap a b
      · exact ih tm x hx2

theorem sumSqError_le (ss ms : List ℚ) : sumSqError ss ms ≤ (9 / 100) * ss.length := by
  have h1 := List.sum_le_card_nsmul (List.zipWith beamError ss ms) ((9 : ℚ) / 100)
    (zipWith_beamError_bound ss ms)
  rw [nsmul_eq_mul] at h1
  calc sumSqError ss ms
      = (List.zipWith beamError ss ms).sum := rfl
    _ ≤ ((List.zipWith beamError ss ms).length : ℚ) * (9 / 100) := h1
    _ ≤ (ss.length : ℚ) * (9 / 100) := by
        apply mul_le_mul_of_nonneg_right _ (by norm_num)
        rw [List.length_zipWith]
        exact_mod_cast min_le_left _ _
    _ = (9 / 100) * ss.length := by ring

theorem candScore_lt_big (ss : List ℚ) (dirs : List (ℚ × ℚ)) (segs : List Seg) (p : Pose)
    (hb : ss.length ≤ 10 ^ 9) : candScore ss dirs segs p < 10 ^ 10 := by
  calc candScore ss dirs segs p
      ≤ (9 / 100) * ss.length := sumSqError_le ss _
    _ ≤ (9 / 100) * ((10 : ℚ) ^ 9) := by
        apply mul_le_mul_of_nonneg_left _ (by norm_num)
        exact_mod_cast hb
    _ < 10 ^ 10 := by norm_num

/-- C7: for a non-empty candidate list (whose sensor-range vector is of any
realistic length — each beam contributes at most `0.09`, so every candidate's
accumulated error is below the `1e10` seed of line 247), the selected best
pose is a candidate attaining the global minimum of the accumulated error,
and every candidate generated before it has a strictly larger error, so on
exact ties the earliest-generated candidate wins. -/
theorem c7_first_argmin (ss : List ℚ) (dirs : List (ℚ × ℚ)) (segs : List Seg)
    (cands : List Pose) (s : LPState) (hne : cands ≠ []) (hb : ss.length ≤ 10 ^ 9) :
    ∃ l1 l2,
      cands = l1 ++ (runSearch (candScore ss dirs segs) cands s).best_laser_pose :: l2 ∧
      (∀ q ∈ cands,
        candScore ss dirs segs (runSearch (candScore ss dirs segs) cands s).best_laser_pose ≤
          candScore ss dirs segs q) ∧
      (∀ q ∈ l1,
        candScore ss dirs segs (runSearch (candScore ss dirs segs) cands s).best_laser_pose <
          candScore ss dirs segs q) := by
  have hex : ∃ p ∈ cands, candScore ss dirs segs p < 10 ^ 10 := by
    obtain ⟨h, t, rfl⟩ := List.exists_cons_of_ne_nil hne
    exact ⟨h, List.mem_cons_self h t, candScore_lt_big ss dirs segs h hb⟩
  obtain ⟨l1, l2, hdec, _, hle, hstrict, _⟩ :=
    searchFold_argmin (candScore ss dirs segs) cands (10 ^ 10) s hex
  exact ⟨l1, l2, hdec, hle, hstrict⟩

/-- Witness for C7: two candidates with tied scores (empty cross-section, one
beam); the search selects the first. -/
theorem c7_witness :
    ∃ l1 l2,
      [Pose.id, translationP 1] = l1 ++
        (runSearch (candScore [1] [(1, 0)] []) [Pose.id, translationP 1]
          (initState Pose.id Pose.id)).best_laser_pose :: l2 ∧
      (∀ q ∈ [Pose.id, translationP 1],
        candScore [1] [(1, 0)] []
          (runSearch (candScore [1] [(1, 0)] []) [Pose.id, translationP 1]
            (initState Pose.id Pose.id)).best_laser_pose ≤ candScore [1] [(1, 0)] [] q) ∧
      (∀ q ∈ l1,
        candScore [1] [(1, 0)] []
          (runSearch (candScore [1] [(1, 0)] []) [Pose.id, translationP 1]
            (initState Pose.id Pose.id)).best_laser_pose < candScore [1] [(1, 0)] [] q) :=
  c7_first_argmin [1] [(1, 0)] [] [Pose.id, translationP 1] (initState Pose.id Pose.id)
    (List.cons_ne_nil _ _) (by norm_num)

/-- C8: with a non-empty candidate list (and a realistic beam count, see C7)
the search leaves `pose_initialized` set, with the best pose one of the
candidates; and the flag is monotonic: once `true`, neither motion
integration nor a further search cycle resets it. -/
theorem c8_initialized_monotone (ss : List ℚ) (dirs : List (ℚ × ℚ)) (segs : List Seg)
    (cands : List Pose) (s sPrev : LPState) (o : Option Pose)
    (hne : cands ≠ []) (hb : ss.length ≤ 10 ^ 9) :
    (runSearch (candScore ss dirs segs) cands s).pose_initialized = true ∧
    (runSearch (candScore ss dirs segs) cands s).best_laser_pose ∈ cands ∧
    (sPrev.pose_initialized = true →
      (runSearch (candScore ss dirs segs) cands (motionUpdate sPrev o)).pose_initialized
        = true) := by
  have hex : ∃ p ∈ cands, candScore ss dirs segs p < 10 ^ 10 := by
    obtain ⟨h, t, rfl⟩ := List.exists_cons_of_ne_nil hne
    exact ⟨h, List.mem_cons_self h t, candScore_lt_big ss dirs segs h hb⟩
  obtain ⟨l1, l2, hdec, _, _, _, hinit⟩ :=
    searchFold_argmin (candScore ss dirs segs) cands (10 ^ 10) s hex
  refine ⟨hinit, ?_, ?_⟩
  · have hmem : ∀ (L : List Pose) (b : Pose), L = l1 ++ b :: l2 → b ∈ L := by
      intro L b hL
      rw [hL]
      exact List.mem_append_right _ (List.mem_cons_self _ _)
    exact hmem cands _ hdec
  · intro hp
    apply (searchFold_preserve (candScore ss dirs segs) cands (10 ^ 10)
      (motionUpdate sPrev o)).2.2
    cases o with
    | none => exact hp
    | some P => simpa [motionUpdate] using hp

/-- Witness for C8 on a one-candidate search from the uninitialized
constructor state. -/
theorem c8_witness :
    (runSearch (candScore [1] [(1, 0)] []) [Pose.id]
      (initState Pose.id Pose.id)).pose_initialized = true :=
  (c8_initialized_monotone [1] [(1, 0)] [] [Pose.id] (initState Pose.id Pose.id)
    (initState Pose.id Pose.id) none (List.cons_ne_nil _ _) (by norm_num)).1

/-- C9: the have-previous-odometry flag starts `false` in the constructor
state, is set by any cycle that consumes an odometry message, is preserved by
the search (which never writes it), and once `true` stays `true` through any
further motion update — so the no-previous-pose branch of motion integration
can run at most once. -/
theorem c9_have_previous_monotone (p b : Pose) (s s2 : LPState) (o : Option Pose) (P : Pose)
    (score : Pose → ℚ) (cands : List Pose) (h : s.have_previous_pose = true) :
    (initState p b).have_previous_pose = false ∧
    (motionUpdate s o).have_previous_pose = true ∧
    (runSearch score cands s).have_previous_pose = s.have_previous_pose ∧
    (motionUpdate s2 (some P)).have_previous_pose = true := by
  refine ⟨rfl, ?_, ?_, rfl⟩
  · cases o with
    | none => exact h
    | some q => rfl
  · exact (searchFold_preserve score cands (10 ^ 10) s).1

/-- Witness for C9 at concrete states. -/
theorem c9_witness :
    (motionUpdate ⟨false, true, Pose.id, Pose.id⟩ none).have_previous_pose = true :=
  (c9_have_previous_monotone Pose.id Pose.id ⟨false, true, Pose.id, Pose.id⟩
    ⟨false, false, Pose.id, Pose.id⟩ none Pose.id (fun _ => 0) [] rfl).2.1

/-- C10: in local (initialized) mode the generated candidates are the
unperturbed best pose first, followed by `best * dT` for each window entry
`(dx, dy, da)` in generation order — and because `dT` is composed on the
right, the world-frame translation of each perturbed candidate offsets the
best pose's translation by its own rotation applied to `(dx, dy)`, i.e. the
offsets are expressed in the best pose's heading frame, not the world axes. -/
theorem c10_local_window_frame (rot : ℚ → ℚ × ℚ) (best : Pose) (dx dy da : ℚ)
    (s : LPState) (h : s.pose_initialized = true) :
    genCandidates rot s = localCandidates rot s.best_laser_pose ∧
    (localCandidates rot best).head? = some best ∧
    localCandidates rot best =
      best :: localWindow.map (fun w => best.mul (poseFrom rot w.1 w.2.1 w.2.2)) ∧
    (best.mul (poseFrom rot dx dy da)).tx = best.xx * dx + best.xy * dy + best.tx ∧
    (best.mul (poseFrom rot dx dy da)).ty = best.yx * dx + best.yy * dy + best.ty := by
  refine ⟨?_, rfl, rfl, rfl, rfl⟩
  simp [genCandidates, h]

/-- Witness for C10 at a concrete initialized state. -/
theorem c10_witness :
    genCandidates (fun _ => (1, 0)) ⟨true, false, Pose.id, Pose.id⟩ =
      localCandidates (fun _ => (1, 0)) Pose.id :=
  (c10_local_window_frame (fun _ => (1, 0)) Pose.id 0 0 0
    ⟨true, false, Pose.id, Pose.id⟩ rfl).1
